import Mathlib

/-!
Verification of the ingestion and chunking pipeline of
`datachad/backend/loader.py`: source-type dispatch, directory walking,
the git fetcher, and the two text-splitting strategies.

Shallow embedding conventions: filesystem and network effects are
abstracted into explicit environment records (which paths exist, what
each loader attempt returns); Python exceptions become `Except` /
`Option`; the logger becomes an accumulated list of messages.
-/

namespace Loader

/-- A langchain `Document`: page content plus metadata.  The only
metadata the splitters here ever write is the numeric `faq_no` key, so
metadata is a list of string-keyed numeric entries. -/
structure Document where
  page_content : String
  metadata : List (String × Nat) := []
deriving Repr, DecidableEq

/-! ### Python string primitives used by `loader.py` -/

/-- ASCII whitespace, the characters removed by Python `str.strip()`
on the inputs this pipeline handles. -/
def isPySpace (c : Char) : Bool :=
  c = ' ' || c = '\t' || c = '\n' || c = '\r' || c = '\x0b' || c = '\x0c'

/-- Python `s.strip()`: drop leading and trailing whitespace. -/
def pyStrip (s : String) : String :=
  ⟨((s.data.dropWhile isPySpace).reverse.dropWhile isPySpace).reverse⟩

/-- Python `s.split(sep)` for a one-character separator: split at every
occurrence, keeping empty pieces. -/
def pySplitAux (sep : Char) : List Char → List Char → List String
  | [], acc => [⟨acc.reverse⟩]
  | c :: rest, acc =>
    if c = sep then ⟨acc.reverse⟩ :: pySplitAux sep rest []
    else pySplitAux sep rest (c :: acc)

def pySplit (s : String) (sep : Char) : List String :=
  pySplitAux sep s.data []

/-- The characters of `cs` after the last occurrence of `sep` (all of
`cs` when `sep` does not occur).  This is `rsplit(sep, 1)[-1]`. -/
def suffixAfterLast (sep : Char) (cs : List Char) : List Char :=
  (cs.reverse.takeWhile (· ≠ sep)).reverse

/-! ### SmartFAQSplitter -/

/-- The lookahead pattern of `re.split(r"(?=\n\n\d+\.)", ...)`: true
when the list starts with two newlines, then one or more digits, then a
period. -/
def faqBoundary : List Char → Bool
  | '\n' :: '\n' :: rest =>
    let ds := rest.takeWhile Char.isDigit
    let tail := rest.dropWhile Char.isDigit
    !ds.isEmpty && tail.head? == some '.'
  | _ => false

/-- `re.split` with the zero-width lookahead boundary: cut immediately
before every position where `faqBoundary` matches (the match consumes
nothing, and scanning resumes one character later, as Python does after
a zero-width match). -/
def faqSplitAux : List Char → List Char → List (List Char)
  | [], acc => [acc.reverse]
  | c :: rest, acc =>
    if faqBoundary (c :: rest) then acc.reverse :: faqSplitAux rest [c]
    else faqSplitAux rest (c :: acc)

def faqSplit (s : String) : List String :=
  (faqSplitAux s.data []).map fun cs => ⟨cs⟩

/-- `re.sub(r"^\n+|\n+$", "", section)`: remove the leading and the
trailing run of newline characters. -/
def trimNewlines (s : String) : String :=
  ⟨((s.data.dropWhile (· = '\n')).reverse.dropWhile (· = '\n')).reverse⟩

/-- `int(re.findall(r"\d", text)[0])`: the numeric value of the first
digit character of `text`, or `none` when there is no digit (in which
case the Python code raises `IndexError`). -/
def firstDigit (s : String) : Option Nat :=
  (s.data.find? Char.isDigit).map fun c => c.toNat - '0'.toNat

/-- The sections produced from one document's content: split on the FAQ
boundary pattern after stripping, then trim blank lines from each
section. -/
def splitSections (content : String) : List String :=
  (faqSplit (pyStrip content)).map trimNewlines

/-- Build one output chunk from a section: its content is the section
text and its metadata carries `faq_no`; `none` models the `IndexError`
raised when the section contains no digit. -/
def faqChunk (text : String) : Option Document :=
  (firstDigit text).map fun n => { page_content := text, metadata := [("faq_no", n)] }

def faqChunks : List String → Option (List Document)
  | [] => some []
  | t :: ts =>
    match faqChunk t, faqChunks ts with
    | some c, some cs => some (c :: cs)
    | _, _ => none

/-- `SmartFAQSplitter.split_documents`: for each document, split its
stripped content at the numbered-entry boundaries, trim each section,
and tag each resulting chunk with the first digit found in it; `none`
models the unhandled `IndexError` on a digitless section. -/
def split_documents : List Document → Option (List Document)
  | [] => some []
  | d :: ds =>
    match faqChunks (splitSections d.page_content), split_documents ds with
    | some cs, some rest => some (cs ++ rest)
    | _, _ => none

/-! ### AutoGitLoader -/

/-- `repo_name = data_source.split("/")[-1].split(".")[0]`.  Both
Python splits always return a non-empty list, so the defaults of
`getLastD` / `headD` are never used. -/
def repo_name (data_source : String) : String :=
  ((pySplit ((pySplit data_source '/').getLastD "") '.').headD "")

/-- Abstract environment for one `AutoGitLoader.load` call: which paths
exist, and what `GitLoader(repo_path, clone_url, branch).load()`
returns for each branch and clone URL. -/
structure GitEnv where
  dataPathExists : Bool
  repoExistsInitially : Bool
  loadResult : String → Option String → Except String (List Document)
  repoExistsAfterAttempts : Bool

/-- Everything observable about one `AutoGitLoader.load` call. -/
structure GitOutcome where
  result : Except String (List Document)
  logged : List String
  cloneUrlPassed : Option String
  repoDeleted : Bool
  dataPathCreated : Bool

/-- `logger.error(f"Error loading git: \x7be\x7d")`. -/
def gitLogMsg (e : String) : String := "Error loading git: " ++ e

/-- The `RuntimeError` message raised when no branch attempt bound
`docs`. -/
def httpsErrorMsg : String :=
  "Error loading git. Make sure to use HTTPS GitHub repo links."

/-- `AutoGitLoader.load`: create the data path if absent, derive the
clone path, pass no clone URL when that path already exists, try the
"main" branch then the "master" branch (logging each failure), delete
the clone path whenever it still exists after the attempts, and return
the first successful result or raise the HTTPS guidance error. -/
def AutoGitLoader.load (env : GitEnv) (data_source : String) : GitOutcome :=
  let dataPathCreated := !env.dataPathExists
  let clone_url : Option String :=
    if env.repoExistsInitially then none else some data_source
  let repoDeleted := env.repoExistsAfterAttempts
  match env.loadResult "main" clone_url with
  | .ok docs =>
    { result := .ok docs, logged := [], cloneUrlPassed := clone_url,
      repoDeleted, dataPathCreated }
  | .error e1 =>
    match env.loadResult "master" clone_url with
    | .ok docs =>
      { result := .ok docs, logged := [gitLogMsg e1], cloneUrlPassed := clone_url,
        repoDeleted, dataPathCreated }
    | .error e2 =>
      { result := .error httpsErrorMsg, logged := [gitLogMsg e1, gitLogMsg e2],
        cloneUrlPassed := clone_url, repoDeleted, dataPathCreated }

/-! ### Loader mappings and `load_document` -/

/-- `"." + file_path.rsplit(".", 1)[-1]`: a dot followed by everything
after the last dot of the path (or the whole path when it has none). -/
def pyExt (file_path : String) : String :=
  "." ++ (⟨suffixAfterLast '.' file_path.data⟩ : String)

/-- The loaders reachable from `WEB_LOADER_MAPPING` together with the
default used by the web branch of `load_data_source`. -/
inductive WebLoader
  | autoGit
  | onlinePDF
  | webBase
deriving Repr, DecidableEq

def WEB_LOADER_MAPPING : List (String × WebLoader) :=
  [(".git", .autoGit), (".pdf", .onlinePDF)]

/-- The loader-selection logic of `load_document` applied to
`WEB_LOADER_MAPPING` with default `WebBaseLoader`: look the extension
up in the mapping, falling back to the default. -/
def chooseWebLoader (file_path : String) : WebLoader :=
  match WEB_LOADER_MAPPING.lookup (pyExt file_path) with
  | some loader => loader
  | none => .webBase

/-! ### load_directory -/

/-- `logger.error(f"failed to load \x7bfile\x7d")`. -/
def dirLogMsg (file : String) : String := "failed to load " ++ file

/-- `load_directory`: walk the (already enumerated, hidden-files
excluded) file list; `loadDoc` abstracts what `load_document` does on
each file.  Returns the collected documents and the logged error
messages, or the first propagated error when `silent_errors` is
false. -/
def load_directory (loadDoc : String → Except String (List Document))
    (silent_errors : Bool) :
    List String → Except String (List Document × List String)
  | [] => .ok ([], [])
  | f :: fs =>
    match loadDoc f with
    | .ok ds =>
      match load_directory loadDoc silent_errors fs with
      | .ok (docs, logs) => .ok (ds ++ docs, logs)
      | .error e => .error e
    | .error e =>
      if silent_errors then
        match load_directory loadDoc silent_errors fs with
        | .ok (docs, logs) => .ok (docs, dirLogMsg f :: logs)
        | .error e2 => .error e2
      else .error e

/-! ### load_data_source dispatch -/

/-- Which handler `load_data_source` delegates to. -/
inductive Route
  | directory
  | file
  | web
  | invalid
deriving Repr, DecidableEq

/-- The filesystem facts `load_data_source` queries about a source. -/
structure SourceFS where
  isDir : Bool
  isFile : Bool

/-- Python `s.startswith(pre)`. -/
def pyStartsWith (s pre : String) : Bool :=
  pre.data.isPrefixOf s.data

/-- The classification performed by `load_data_source`: directory
first, then file, then web (`startswith("http")`), else the
`TypeError` branch (`Route.invalid`). -/
def load_data_source_route (fs : SourceFS) (data_source : String) : Route :=
  let is_web := pyStartsWith data_source "http"
  let is_dir := fs.isDir
  let is_file := fs.isFile
  if is_dir then .directory
  else if is_file then .file
  else if is_web then .web
  else .invalid

/-! ### split_docs chunking options -/

structure ChunkingOptions where
  chunk_size : Nat
  chunk_overlap_pct : Nat

/-- `chunk_overlap = int(options["chunk_size"] * options["chunk_overlap_pct"] / 100)`,
the truncated quotient. -/
def chunk_overlap (options : ChunkingOptions) : Nat :=
  options.chunk_size * options.chunk_overlap_pct / 100

/-! ### Spec-side formulations, used to compare the code against the
spec's wording -/

/-- Spec-side: the integer denoted by the first maximal digit sequence
of the text ("a chunk whose content begins with 12. gets faq_no 12"). -/
def specFirstNumber (s : String) : Option Nat :=
  let ds := (s.data.dropWhile (fun c => !c.isDigit)).takeWhile Char.isDigit
  if ds.isEmpty then none
  else some (ds.foldl (fun n c => n * 10 + (c.toNat - '0'.toNat)) 0)

/-- Spec-side: a URL "identified by a .git-style suffix or well-known
repository host pattern" (the only repository host this code base ever
names is GitHub). -/
def specIsRepoURL (url : String) : Bool :=
  ".git".data.isSuffixOf url.data || decide (List.IsInfix "github.com".data url.data)

/-- Spec-side: the last `/`-separated segment of the URL. -/
def lastSegment (s : String) : String :=
  ⟨suffixAfterLast '/' s.data⟩

/-- Spec-side: the prefix of the string before its first dot. -/
def untilFirstDot (s : String) : String :=
  ⟨s.data.takeWhile (· ≠ '.')⟩

/-- Spec-side: the concatenated documents of the files whose extraction
succeeds, in walk order. -/
def successDocs (loadDoc : String → Except String (List Document))
    (files : List String) : List Document :=
  (files.map fun f =>
    match loadDoc f with
    | .ok ds => ds
    | .error _ => []).flatten

/-- `true` exactly on a failed extraction outcome. -/
def failed : Except String (List Document) → Bool
  | .error _ => true
  | .ok _ => false

/-- Spec-side: the files whose extraction fails, in walk order. -/
def failedFiles (loadDoc : String → Except String (List Document))
    (files : List String) : List String :=
  files.filter fun f => failed (loadDoc f)

/-- Spec-side: the error of the first file whose extraction fails. -/
def firstFailure (loadDoc : String → Except String (List Document)) :
    List String → Option String
  | [] => none
  | f :: fs =>
    match loadDoc f with
    | .error e => some e
    | .ok _ => firstFailure loadDoc fs

/-! ## Helper lemmas -/

theorem takeWhile_append_all {α} (p : α → Bool) (l l' : List α)
    (h : ∀ a ∈ l, p a = true) :
    (l ++ l').takeWhile p = l ++ l'.takeWhile p := by
  induction l with
  | nil => simp
  | cons a t ih =>
    have ha := h a (List.mem_cons_self a t)
    simp [List.takeWhile_cons, ha, ih fun x hx => h x (List.mem_cons_of_mem a hx)]

theorem takeWhile_append_stop {α} (p : α → Bool) (l l' : List α)
    (h : ∃ a ∈ l, p a = false) :
    (l ++ l').takeWhile p = l.takeWhile p := by
  induction l with
  | nil => simp at h
  | cons a t ih =>
    cases ha : p a with
    | false => simp [List.takeWhile_cons, ha]
    | true =>
      have h' : ∃ x ∈ t, p x = false := by
        rcases h with ⟨x, hx, hpx⟩
        rcases List.mem_cons.mp hx with rfl | hx
        · rw [ha] at hpx; cases hpx
        · exact ⟨x, hx, hpx⟩
      simp [List.takeWhile_cons, ha, ih h']

theorem suffixAfterLast_cons (sep c : Char) (rest : List Char) :
    suffixAfterLast sep (c :: rest) =
      if sep ∈ rest then suffixAfterLast sep rest
      else if c = sep then rest else c :: rest := by
  by_cases hm : sep ∈ rest
  · rw [if_pos hm]
    unfold suffixAfterLast
    rw [List.reverse_cons,
      takeWhile_append_stop _ _ _ ⟨sep, List.mem_reverse.mpr hm, by simp⟩]
  · rw [if_neg hm]
    have hall : ∀ a ∈ rest.reverse, (decide (a ≠ sep)) = true := by
      intro a ha
      simp only [decide_eq_true_eq]
      intro heq
      exact hm (heq ▸ List.mem_reverse.mp ha)
    unfold suffixAfterLast
    rw [List.reverse_cons, takeWhile_append_all _ _ _ hall]
    by_cases hc : c = sep
    · subst hc
      simp [List.takeWhile_cons]
    · rw [if_neg hc]
      simp [List.takeWhile_cons, hc]

theorem suffixAfterLast_of_not_mem (sep : Char) (cs : List Char)
    (h : sep ∉ cs) :
    suffixAfterLast sep cs = cs := by
  have hall : ∀ a ∈ cs.reverse, (decide (a ≠ sep)) = true := by
    intro a ha
    simp only [decide_eq_true_eq]
    intro heq
    exact h (heq ▸ List.mem_reverse.mp ha)
  unfold suffixAfterLast
  have := takeWhile_append_all (fun a => decide (a ≠ sep)) cs.reverse [] hall
  simp only [List.append_nil, List.takeWhile_nil] at this
  rw [this, List.reverse_reverse]

theorem pySplitAux_headD (sep : Char) (cs : List Char) :
    ∀ (acc : List Char) (d : String),
      (pySplitAux sep cs acc).headD d =
        ⟨acc.reverse ++ cs.takeWhile (· ≠ sep)⟩ := by
  induction cs with
  | nil => intro acc d; simp [pySplitAux]
  | cons c rest ih =>
    intro acc d
    by_cases hc : c = sep
    · subst hc
      simp [pySplitAux, List.takeWhile_cons]
    · rw [show pySplitAux sep (c :: rest) acc =
          pySplitAux sep rest (c :: acc) from by simp [pySplitAux, hc]]
      rw [ih (c :: acc) d]
      simp [List.takeWhile_cons, hc]

theorem pySplitAux_getLastD (sep : Char) (cs : List Char) :
    ∀ (acc : List Char) (d : String),
      (pySplitAux sep cs acc).getLastD d =
        if sep ∈ cs then (⟨suffixAfterLast sep cs⟩ : String)
        else ⟨acc.reverse ++ cs⟩ := by
  induction cs with
  | nil => intro acc d; simp [pySplitAux]
  | cons c rest ih =>
    intro acc d
    by_cases hc : c = sep
    · rw [show pySplitAux sep (c :: rest) acc =
          (⟨acc.reverse⟩ : String) :: pySplitAux sep rest [] from by
        simp [pySplitAux, hc]]
      rw [List.getLastD_cons, ih [] ⟨acc.reverse⟩,
        if_pos (List.mem_cons.mpr (Or.inl hc.symm)), suffixAfterLast_cons]
      by_cases hm : sep ∈ rest
      · rw [if_pos hm, if_pos hm]
      · rw [if_neg hm, if_neg hm, if_pos hc]
        simp
    · rw [show pySplitAux sep (c :: rest) acc =
          pySplitAux sep rest (c :: acc) from by simp [pySplitAux, hc]]
      rw [ih (c :: acc) d]
      have hmem : (sep ∈ c :: rest) ↔ sep ∈ rest := by
        constructor
        · intro h
          rcases List.mem_cons.mp h with h | h
          · exact absurd h.symm hc
          · exact h
        · exact List.mem_cons_of_mem c
      by_cases hm : sep ∈ rest
      · rw [if_pos hm, if_pos (hmem.mpr hm), suffixAfterLast_cons, if_pos hm]
      · rw [if_neg hm, if_neg (fun h => hm (hmem.mp h))]
        simp

theorem pySplit_headD (s : String) (sep : Char) (d : String) :
    (pySplit s sep).headD d = ⟨s.data.takeWhile (· ≠ sep)⟩ := by
  unfold pySplit
  rw [pySplitAux_headD]
  simp

theorem pySplit_getLastD (s : String) (sep : Char) (d : String) :
    (pySplit s sep).getLastD d = ⟨suffixAfterLast sep s.data⟩ := by
  unfold pySplit
  rw [pySplitAux_getLastD]
  by_cases hm : sep ∈ s.data
  · rw [if_pos hm]
  · rw [if_neg hm, suffixAfterLast_of_not_mem _ _ hm]
    simp

theorem firstDigit_eq_none_iff (s : String) :
    firstDigit s = none ↔ ∀ c ∈ s.data, c.isDigit = false := by
  simp [firstDigit, List.find?_eq_none]

theorem faqChunk_eq_none_iff (t : String) :
    faqChunk t = none ↔ firstDigit t = none := by
  simp [faqChunk]

theorem faqChunks_mem {ts : List String} {cs : List Document}
    (h : faqChunks ts = some cs) :
    ∀ c ∈ cs, ∃ n, firstDigit c.page_content = some n ∧
      c.metadata = [("faq_no", n)] := by
  induction ts generalizing cs with
  | nil =>
    simp only [faqChunks, Option.some.injEq] at h
    subst h
    simp
  | cons t ts ih =>
    simp only [faqChunks] at h
    cases h1 : faqChunk t with
    | none => rw [h1] at h; cases h
    | some c0 =>
      cases h2 : faqChunks ts with
      | none => rw [h1, h2] at h; cases h
      | some cs0 =>
        rw [h1, h2] at h
        cases h
        intro c hc
        rcases List.mem_cons.mp hc with rfl | hc
        · cases hd : firstDigit t with
          | none => rw [faqChunk, hd] at h1; cases h1
          | some n =>
            rw [faqChunk, hd] at h1
            cases h1
            exact ⟨n, hd, rfl⟩
        · exact ih h2 c hc

theorem faqChunks_eq_none (ts : List String) :
    faqChunks ts = none ↔ ∃ t ∈ ts, firstDigit t = none := by
  induction ts with
  | nil => simp [faqChunks]
  | cons t ts ih =>
    cases h1 : faqChunk t with
    | none =>
      have hd : firstDigit t = none := (faqChunk_eq_none_iff t).mp h1
      simp [faqChunks, h1, hd]
    | some c =>
      have hd : firstDigit t ≠ none := by
        intro hn
        rw [(faqChunk_eq_none_iff t).mpr hn] at h1
        cases h1
      cases h2 : faqChunks ts with
      | none => simp [faqChunks, h1, h2, hd, ih.mp h2]
      | some cs =>
        have h3 : ¬ ∃ x ∈ ts, firstDigit x = none := by
          intro hx
          rw [ih.mpr hx] at h2
          cases h2
        simp [faqChunks, h1, h2, hd, h3]

theorem split_documents_eq_none (documents : List Document) :
    split_documents documents = none ↔
      ∃ d ∈ documents, ∃ t ∈ splitSections d.page_content,
        firstDigit t = none := by
  induction documents with
  | nil => simp [split_documents]
  | cons d ds ih =>
    cases h1 : faqChunks (splitSections d.page_content) with
    | none =>
      have hd := (faqChunks_eq_none _).mp h1
      simp [split_documents, h1, hd]
    | some cs =>
      have hd : ¬ ∃ t ∈ splitSections d.page_content, firstDigit t = none := by
        intro hx
        rw [(faqChunks_eq_none _).mpr hx] at h1
        cases h1
      cases h2 : split_documents ds with
      | none => simp [split_documents, h1, h2, hd, ih.mp h2]
      | some rest =>
        have h3 : ¬ ∃ d ∈ ds, ∃ t ∈ splitSections d.page_content,
            firstDigit t = none := by
          intro hx
          rw [ih.mpr hx] at h2
          cases h2
        simp [split_documents, h1, h2, hd, h3]

end Loader

/-! ## Claim theorems -/

namespace Loader

/-- C9: applied to a single document with content
`"\n\n1. A\ntext\n\n\n2. B\ntext"`, the FAQ splitter returns exactly two
chunks, carrying `faq_no` 1 and 2 in order, with leading and trailing
blank lines removed from each chunk's content. -/
theorem faq_splitter_example :
    split_documents [{ page_content := "\n\n1. A\ntext\n\n\n2. B\ntext" }] =
      some [{ page_content := "1. A\ntext", metadata := [("faq_no", 1)] },
            { page_content := "2. B\ntext", metadata := [("faq_no", 2)] }] := by
  decide

/-- C1 counterexample: a chunk whose content begins with `"12."` gets
`faq_no` 1, not the 12 denoted by its first maximal digit sequence,
because the code reads only the first digit character. -/
theorem faq_no_counterexample :
    split_documents [{ page_content := "12. Example" }] =
      some [{ page_content := "12. Example", metadata := [("faq_no", 1)] }] ∧
    specFirstNumber "12. Example" = some 12 ∧ (1 : Nat) ≠ 12 :=
  ⟨by decide, by decide, by decide⟩

/-- C1 amended: every chunk produced by the FAQ splitter carries a
`faq_no` metadata field equal to the numeric value of the first single
digit character occurring in that chunk's content (not the full first
digit sequence). -/
theorem faq_no_is_first_digit (documents chunks : List Document)
    (h : split_documents documents = some chunks) :
    ∀ c ∈ chunks, ∃ n, firstDigit c.page_content = some n ∧
      c.metadata = [("faq_no", n)] := by
  induction documents generalizing chunks with
  | nil =>
    simp only [split_documents, Option.some.injEq] at h
    subst h
    simp
  | cons d ds ih =>
    simp only [split_documents] at h
    cases h1 : faqChunks (splitSections d.page_content) with
    | none => rw [h1] at h; cases h
    | some cs =>
      cases h2 : split_documents ds with
      | none => rw [h1, h2] at h; cases h
      | some rest =>
        rw [h1, h2] at h
        cases h
        intro c hc
        rcases List.mem_append.mp hc with hc | hc
        · exact faqChunks_mem h1 c hc
        · exact ih rest h2 c hc

/-- Witness for the amended C1 theorem at a concrete input. -/
theorem faq_no_is_first_digit_witness :
    ∃ n, firstDigit
        ({ page_content := "3. Q", metadata := [("faq_no", 3)] } : Document).page_content
        = some n ∧
      ({ page_content := "3. Q", metadata := [("faq_no", 3)] } : Document).metadata
        = [("faq_no", n)] :=
  faq_no_is_first_digit [{ page_content := "3. Q" }]
    [{ page_content := "3. Q", metadata := [("faq_no", 3)] }] (by decide)
    { page_content := "3. Q", metadata := [("faq_no", 3)] } (by decide)

/-- C10: the FAQ splitter fails (the modelled `IndexError`) exactly when
some split section contains no digit character; when every section has a
digit the failure branch is unreachable and a result is returned. -/
theorem faq_splitter_partiality (documents : List Document) :
    split_documents documents = none ↔
      ∃ d ∈ documents, ∃ t ∈ splitSections d.page_content,
        ∀ c ∈ t.data, c.isDigit = false := by
  rw [split_documents_eq_none]
  simp only [firstDigit_eq_none_iff]

/-- C2 counterexample: when the clone path already exists before the
call (so no clone URL is passed) and is still on disk after the branch
attempts, the call deletes it anyway — contradicting the claim that a
pre-existing checkout is not deleted. -/
theorem git_cleanup_counterexample :
    (AutoGitLoader.load
        { dataPathExists := true, repoExistsInitially := true,
          loadResult := fun _ _ => .ok [], repoExistsAfterAttempts := true }
        "https://github.com/user/repo.git").cloneUrlPassed = none ∧
    (AutoGitLoader.load
        { dataPathExists := true, repoExistsInitially := true,
          loadResult := fun _ _ => .ok [], repoExistsAfterAttempts := true }
        "https://github.com/user/repo.git").repoDeleted = true :=
  ⟨rfl, rfl⟩

/-- C2 amended: the clone path is deleted recursively before the call
returns or raises exactly when it exists after the branch attempts,
regardless of whether it was created during the call; a path that
already existed before the call is loaded without passing a clone URL
but is deleted all the same. -/
theorem git_cleanup (env : GitEnv) (data_source : String) :
    ((AutoGitLoader.load env data_source).repoDeleted =
      env.repoExistsAfterAttempts) ∧
    (env.repoExistsInitially = true →
      (AutoGitLoader.load env data_source).cloneUrlPassed = none) ∧
    (env.repoExistsInitially = false →
      (AutoGitLoader.load env data_source).cloneUrlPassed = some data_source) := by
  cases hre : env.repoExistsInitially
  · simp only [AutoGitLoader.load, hre, Bool.false_eq_true, if_false]
    cases h1 : env.loadResult "main" (some data_source) with
    | ok docs => simp [h1]
    | error e1 =>
      cases h2 : env.loadResult "master" (some data_source) with
      | ok docs => simp [h1, h2]
      | error e2 => simp [h1, h2]
  · simp only [AutoGitLoader.load, hre, if_true]
    cases h1 : env.loadResult "main" none with
    | ok docs => simp [h1]
    | error e1 =>
      cases h2 : env.loadResult "master" none with
      | ok docs => simp [h1, h2]
      | error e2 => simp [h1, h2]

/-- Witness for the amended C2 theorem at a concrete environment. -/
theorem git_cleanup_witness :
    (AutoGitLoader.load
        { dataPathExists := false, repoExistsInitially := true,
          loadResult := fun _ _ => .error "boom", repoExistsAfterAttempts := true }
        "https://github.com/u/r.git").repoDeleted = true ∧
    (AutoGitLoader.load
        { dataPathExists := false, repoExistsInitially := true,
          loadResult := fun _ _ => .error "boom", repoExistsAfterAttempts := true }
        "https://github.com/u/r.git").cloneUrlPassed = none := by
  have h := git_cleanup
    { dataPathExists := false, repoExistsInitially := true,
      loadResult := fun _ _ => .error "boom", repoExistsAfterAttempts := true }
    "https://github.com/u/r.git"
  exact ⟨h.1.trans rfl, h.2.1 rfl⟩

/-- C3: the call raises the HTTPS-guidance error if and only if both
branch attempts ("main" then "master") fail; otherwise it returns the
documents of the first attempt that succeeds, and each individual
branch failure is logged rather than raised. -/
theorem git_branch_fallback (env : GitEnv) (data_source : String)
    (clone_url : Option String)
    (hc : clone_url = if env.repoExistsInitially then none else some data_source) :
    ((∃ e, (AutoGitLoader.load env data_source).result = .error e) ↔
      failed (env.loadResult "main" clone_url) = true ∧
      failed (env.loadResult "master" clone_url) = true) ∧
    (∀ e, (AutoGitLoader.load env data_source).result = .error e →
      e = httpsErrorMsg) ∧
    (∀ docs, env.loadResult "main" clone_url = .ok docs →
      (AutoGitLoader.load env data_source).result = .ok docs ∧
      (AutoGitLoader.load env data_source).logged = []) ∧
    (∀ e1 docs, env.loadResult "main" clone_url = .error e1 →
      env.loadResult "master" clone_url = .ok docs →
      (AutoGitLoader.load env data_source).result = .ok docs ∧
      (AutoGitLoader.load env data_source).logged = [gitLogMsg e1]) ∧
    (∀ e1 e2, env.loadResult "main" clone_url = .error e1 →
      env.loadResult "master" clone_url = .error e2 →
      (AutoGitLoader.load env data_source).result = .error httpsErrorMsg ∧
      (AutoGitLoader.load env data_source).logged =
        [gitLogMsg e1, gitLogMsg e2]) := by
  subst hc
  unfold AutoGitLoader.load
  cases h1 : env.loadResult "main"
      (if env.repoExistsInitially then none else some data_source) with
  | ok docs => simp [h1, failed]
  | error e1 =>
    cases h2 : env.loadResult "master"
        (if env.repoExistsInitially then none else some data_source) with
    | ok docs => simp [h1, h2, failed]
    | error e2 => simp [h1, h2, failed]

/-- Witness for C3: first branch fails, second succeeds; the call
returns the second attempt's documents and logs the first failure. -/
theorem git_branch_fallback_witness :
    (AutoGitLoader.load
        { dataPathExists := true, repoExistsInitially := false,
          loadResult := fun b _ => if b = "main" then .error "no main" else .ok [],
          repoExistsAfterAttempts := false }
        "https://github.com/a/b.git").result = .ok [] ∧
    (AutoGitLoader.load
        { dataPathExists := true, repoExistsInitially := false,
          loadResult := fun b _ => if b = "main" then .error "no main" else .ok [],
          repoExistsAfterAttempts := false }
        "https://github.com/a/b.git").logged = [gitLogMsg "no main"] := by
  have h := git_branch_fallback
    { dataPathExists := true, repoExistsInitially := false,
      loadResult := fun b _ => if b = "main" then .error "no main" else .ok [],
      repoExistsAfterAttempts := false }
    "https://github.com/a/b.git" (some "https://github.com/a/b.git") rfl
  exact h.2.2.2.1 "no main" [] rfl rfl

/-- C6: the configured chunk overlap is the truncated integer quotient
`chunk_size * chunk_overlap_pct / 100`, and for any positive chunk size
and an overlap percentage below 100 it is strictly smaller than the
chunk size. -/
theorem chunk_overlap_correct (options : ChunkingOptions)
    (hsize : 0 < options.chunk_size)
    (hpct : options.chunk_overlap_pct < 100) :
    chunk_overlap options =
      options.chunk_size * options.chunk_overlap_pct / 100 ∧
    chunk_overlap options < options.chunk_size := by
  refine ⟨rfl, ?_⟩
  have h2 : options.chunk_size * options.chunk_overlap_pct <
      options.chunk_size * 100 := mul_lt_mul_of_pos_left hpct hsize
  exact (Nat.div_lt_iff_lt_mul (by norm_num)).mpr h2

/-- Witness for C6 at `chunk_size = 1000`, `chunk_overlap_pct = 25`. -/
theorem chunk_overlap_correct_witness :
    chunk_overlap { chunk_size := 1000, chunk_overlap_pct := 25 } =
      1000 * 25 / 100 ∧
    chunk_overlap { chunk_size := 1000, chunk_overlap_pct := 25 } < 1000 :=
  chunk_overlap_correct { chunk_size := 1000, chunk_overlap_pct := 25 }
    (by decide) (by decide)

/-- C8: the dispatcher classifies a source by testing, in order with
first match winning: existing directory, then existing file, then URL
scheme (`startswith("http")`); a source matching none of the three goes
to the error branch (the `TypeError` the spec names `InvalidSource`). -/
theorem dispatch_order (fs : SourceFS) (data_source : String) :
    (fs.isDir = true →
      load_data_source_route fs data_source = .directory) ∧
    (fs.isDir = false → fs.isFile = true →
      load_data_source_route fs data_source = .file) ∧
    (fs.isDir = false → fs.isFile = false →
      pyStartsWith data_source "http" = true →
      load_data_source_route fs data_source = .web) ∧
    (fs.isDir = false → fs.isFile = false →
      pyStartsWith data_source "http" = false →
      load_data_source_route fs data_source = .invalid) := by
  unfold load_data_source_route
  refine ⟨?_, ?_, ?_, ?_⟩ <;> intros <;> simp [*]

/-- Witness for C8: a non-directory, non-file, non-http source is
classified as invalid. -/
theorem dispatch_order_witness :
    load_data_source_route { isDir := false, isFile := false }
      "ftp://host/x" = .invalid :=
  (dispatch_order { isDir := false, isFile := false } "ftp://host/x").2.2.2
    rfl rfl (by decide)

/-- C5 counterexample: `"https://example.com/doc.pdf"` has no
`.git`-style suffix and matches no repository host pattern, yet it is
routed to the online PDF loader, not the generic web extractor. -/
theorem web_routing_counterexample :
    chooseWebLoader "https://example.com/doc.pdf" = WebLoader.onlinePDF ∧
    specIsRepoURL "https://example.com/doc.pdf" = false ∧
    WebLoader.onlinePDF ≠ WebLoader.webBase :=
  ⟨by decide, by decide, by decide⟩

/-- C5 amended: a URL is routed to the Git Fetcher exactly when the text
after its last dot is `"git"`; a URL whose text after the last dot is
`"pdf"` is routed to the online PDF loader; every other URL goes to the
generic web extractor.  No host pattern is consulted. -/
theorem web_routing_by_extension (url : String) :
    (chooseWebLoader url = .autoGit ↔ pyExt url = ".git") ∧
    (chooseWebLoader url = .onlinePDF ↔ pyExt url = ".pdf") ∧
    (chooseWebLoader url = .webBase ↔
      (pyExt url ≠ ".git" ∧ pyExt url ≠ ".pdf")) := by
  unfold chooseWebLoader WEB_LOADER_MAPPING
  by_cases h1 : pyExt url = ".git"
  · simp [List.lookup, h1]
  · have e1 : (pyExt url == ".git") = false := beq_eq_false_iff_ne.mpr h1
    by_cases h2 : pyExt url = ".pdf"
    · simp [List.lookup, e1, h1, h2]
    · have e2 : (pyExt url == ".pdf") = false := beq_eq_false_iff_ne.mpr h2
      simp [List.lookup, e1, e2, h1, h2]

/-- C7: with silent mode on (the default), every per-file failure is
logged (one log line per failing file, in walk order), the failing file
contributes zero documents, and the walk returns the concatenated
documents of the successful files; with silent mode off, the walk
returns the error of the first failing file (and the documents of all
files when none fails). -/
theorem load_directory_policy
    (loadDoc : String → Except String (List Document))
    (files : List String) :
    load_directory loadDoc true files =
      .ok (successDocs loadDoc files,
        (failedFiles loadDoc files).map dirLogMsg) ∧
    load_directory loadDoc false files =
      (match firstFailure loadDoc files with
       | none => .ok (successDocs loadDoc files, [])
       | some e => .error e) := by
  induction files with
  | nil => simp [load_directory, successDocs, failedFiles, firstFailure]
  | cons f fs ih =>
    obtain ⟨ih1, ih2⟩ := ih
    constructor
    · cases hf : loadDoc f with
      | ok ds =>
        simp [load_directory, hf, ih1, successDocs, failedFiles, failed]
      | error e =>
        simp [load_directory, hf, ih1, successDocs, failedFiles, failed]
    · cases hf : loadDoc f with
      | ok ds =>
        simp only [load_directory, hf, ih2, firstFailure]
        cases firstFailure loadDoc fs <;> simp [successDocs, hf]
      | error e =>
        simp [load_directory, hf, firstFailure]

/-- C4 counterexample: the URL
`"https://host/user/repo.name.git"` yields the directory name
`"repo"`, not the `"repo.name"` the claim promises, because the code
truncates the last path segment at its first dot. -/
theorem repo_name_counterexample :
    repo_name "https://host/user/repo.name.git" = "repo" ∧
    ("repo" : String) ≠ "repo.name" :=
  ⟨by decide, by decide⟩

/-- C4 amended: the local clone directory name is the last path segment
of the URL truncated at its first dot — every character from the first
dot of that segment onward is removed, not only a trailing extension
suffix. -/
theorem repo_name_first_dot (data_source : String) :
    repo_name data_source = untilFirstDot (lastSegment data_source) := by
  unfold repo_name untilFirstDot lastSegment
  rw [pySplit_getLastD, pySplit_headD]

end Loader
